import Mathlib

/-!
# Verification of the TDTT POI/weather pipeline

Shallow embedding of `src/map.py` and `src/weather.py`.

Modelling conventions:
* JSON dictionary lookups (`d.get(k)`) become `Option` values; `d.get(k, v)`
  becomes `Option.getD`.
* Python truthiness matters in this code base: `0`, `0.0`, `""`, `[]`, `{}`
  and `None` are all falsy.  Each spot where the source relies on truthiness
  is modelled explicitly (`truthyQ`, `truthyS`, `pyOrQ`, `pyOrS`, …).
* Numbers coming from JSON are modelled as `ℚ` (the claims under study do not
  concern float rounding); the transcendental `haversine` is modelled over `ℝ`.
* Code that can raise is modelled in `Except Unit`.
* Network calls are modelled by their outcomes: a list (or function) giving the
  outcome of each upstream attempt.
-/

namespace TDTT

/-! ## map.py: helper predicates for Python truthiness -/

/-- Python truthiness of an optional number: `None` and `0` are falsy. -/
def truthyQ : Option ℚ → Bool
  | some x => decide (x ≠ 0)
  | none => false

/-- Python truthiness of an optional string: `None` and `""` are falsy. -/
def truthyS : Option String → Bool
  | some s => !(s == "")
  | none => false

/-- Python `a or b` on optional numbers (`a` wins when truthy). -/
def pyOrQ (a b : Option ℚ) : Option ℚ :=
  if truthyQ a then a else b

/-- Python `a or b` on optional strings (`a` wins when truthy). -/
def pyOrS (a b : Option String) : Option String :=
  if truthyS a then a else b

/-- `tags.get(k)` on the element's tag dictionary. -/
def tagGet (tags : List (String × String)) (k : String) : Option String :=
  (tags.find? (fun p => p.1 == k)).map (fun p => p.2)

/-! ## map.py: raw Overpass elements -/

/-- The `center` sub-object of a way/area element (`{"lat": …, "lon": …}`). -/
structure Center where
  lat : Option ℚ
  lon : Option ℚ
deriving DecidableEq

/-- A raw element of the Overpass response's `elements` array.
`etype` models the `"type"` key (a Lean keyword); an absent or empty `center`
dictionary is modelled as `none` (both are treated identically by the code,
which evaluates `e.get("center") or {}`). -/
structure Element where
  id : Option ℤ
  etype : Option String
  tags : List (String × String)
  lat : Option ℚ
  lon : Option ℚ
  center : Option Center
deriving DecidableEq

/-- `eid, etype = e.get("id"), e.get("type", "node")`; the element is skipped
when `not eid`, i.e. when the id is `None` or `0`; otherwise its dedup key is
`(etype, eid)`. -/
def keyOf (e : Element) : Option (String × ℤ) :=
  match e.id with
  | none => none
  | some i => if i = 0 then none else some (e.etype.getD "node", i)

/-- `e.get("lat") or (e.get("center") or {}).get("lat")`. -/
def el_lat (e : Element) : Option ℚ :=
  pyOrQ e.lat (match e.center with | some c => c.lat | none => none)

/-- `e.get("lon") or (e.get("center") or {}).get("lon")`. -/
def el_lon (e : Element) : Option ℚ :=
  pyOrQ e.lon (match e.center with | some c => c.lon | none => none)

/-- `tags.get("name") or tags.get("brand") or "(không tên)"`. -/
def poiName (tags : List (String × String)) : String :=
  (pyOrS (pyOrS (tagGet tags "name") (tagGet tags "brand")) (some "(không tên)")).getD "(không tên)"

/-- `tags.get("amenity") or tags.get("shop") or tags.get("tourism") or tags.get("leisure")`. -/
def poiCategory (tags : List (String × String)) : Option String :=
  pyOrS (tagGet tags "amenity") (pyOrS (tagGet tags "shop")
    (pyOrS (tagGet tags "tourism") (tagGet tags "leisure")))

/-- `make_address`: join the truthy `addr:*` tags with `", "`. -/
def make_address (tags : List (String × String)) : String :=
  String.intercalate ", "
    ((["housenumber", "street", "city", "province"]).filterMap (fun k =>
      let v := tagGet tags ("addr:" ++ k)
      if truthyS v then v else none))

/-- A normalized POI.  `distance_m` lives in an arbitrary linearly ordered
type `δ`: the source computes it with `haversine` (real-valued, modelled
separately below), and the normalization logic depends only on the ordering
of the distance values. -/
structure POI (δ : Type) where
  id : ℤ
  osm_type : String
  name : String
  lat : ℚ
  lon : ℚ
  distance_m : δ
  category : Option String
  address : String
deriving DecidableEq

/-- The POI built for a non-skipped element (the body of the `results.append`
call in `fetch_pois`), `none` when the element's resolved latitude or
longitude is falsy (`if not el_lat or not el_lon: continue`).  The key check
is included so that `buildPOI` is meaningful standalone. -/
def buildPOI {δ : Type} (dist : ℚ → ℚ → ℚ → ℚ → δ) (lat lon : ℚ) (e : Element) :
    Option (POI δ) :=
  match keyOf e with
  | none => none
  | some k =>
    if truthyQ (el_lat e) && truthyQ (el_lon e) then
      some
        { id := k.2
          osm_type := k.1
          name := poiName e.tags
          lat := (el_lat e).getD 0
          lon := (el_lon e).getD 0
          distance_m := dist lat lon ((el_lat e).getD 0) ((el_lon e).getD 0)
          category := poiCategory e.tags
          address := make_address e.tags }
    else none

/-- The `for e in elements` loop of `fetch_pois`, with the `seen` set made
explicit.  Elements without a truthy id are skipped; a seen key is skipped;
the key is added to `seen` *before* the coordinate check, exactly as in the
source (`seen.add` precedes the `el_lat`/`el_lon` test). -/
def normLoop {δ : Type} (dist : ℚ → ℚ → ℚ → ℚ → δ) (lat lon : ℚ) :
    List Element → List (String × ℤ) → List (POI δ)
  | [], _ => []
  | e :: rest, seen =>
    match keyOf e with
    | none => normLoop dist lat lon rest seen
    | some k =>
      if k ∈ seen then normLoop dist lat lon rest seen
      else
        match buildPOI dist lat lon e with
        | some p => p :: normLoop dist lat lon rest (k :: seen)
        | none => normLoop dist lat lon rest (k :: seen)

/-- The full (pre-sort, pre-truncation) `results` list of `fetch_pois`. -/
def normalizeAll {δ : Type} (dist : ℚ → ℚ → ℚ → ℚ → δ) (lat lon : ℚ)
    (elements : List Element) : List (POI δ) :=
  normLoop dist lat lon elements []

/-- `fetch_pois` (normalization part): dedup/coordinate loop, then
`results.sort(key=lambda x: x["distance_m"])`, then `results[:limit]`.
The upstream fetch itself is I/O and is modelled by passing the response's
`elements` array directly. -/
def fetch_pois {δ : Type} [LinearOrder δ] (dist : ℚ → ℚ → ℚ → ℚ → δ)
    (lat lon : ℚ) (elements : List Element) (limit : ℕ) : List (POI δ) :=
  ((normalizeAll dist lat lon elements).mergeSort
    (fun a b => decide (a.distance_m ≤ b.distance_m))).take limit

/-- A concrete computable distance function (squared euclidean distance on
coordinates), used to instantiate witnesses and counterexamples. -/
def sqDist (lat1 lon1 lat2 lon2 : ℚ) : ℚ :=
  (lat2 - lat1) * (lat2 - lat1) + (lon2 - lon1) * (lon2 - lon1)

/-! ## map.py: Overpass mirror iteration (`overpass_request`) -/

/-- The configured mirror endpoints, in their fixed order. -/
def OVERPASS_URLS : List String :=
  [ "https://overpass.kumi.systems/api/interpreter",
    "https://overpass-api.de/api/interpreter",
    "https://overpass.openstreetmap.ru/api/interpreter" ]

/-- Outcome of `requests.post(url, …); r.raise_for_status(); r.json()` for one
mirror: either a parsed JSON body or an exception (network error, non-2xx
status, or malformed body). -/
inductive MirrorOutcome (J : Type) where
  | ok (json : J)
  | exc
deriving DecidableEq

/-- The `for url in OVERPASS_URLS` loop: first success returns immediately;
an exception advances (after `time.sleep(0.8)`) to the next mirror; the
exhausted loop raises `RuntimeError`.  Also returns how many mirrors were
contacted. -/
def overpass_request_run {J : Type} (outcome : String → MirrorOutcome J) :
    List String → Except Unit J × ℕ
  | [] => (.error (), 0)
  | url :: rest =>
    match outcome url with
    | .ok j => (.ok j, 1)
    | .exc =>
      let r := overpass_request_run outcome rest
      (r.1, r.2 + 1)

/-- `overpass_request(query)`: run the mirror loop over `OVERPASS_URLS`. -/
def overpass_request {J : Type} (outcome : String → MirrorOutcome J) :
    Except Unit J × ℕ :=
  overpass_request_run outcome OVERPASS_URLS

/-! ## map.py: `geocode_safe` -/

/-- Outcome of one `geolocator.geocode(place + ", Vietnam", timeout=10)` call:
a normal return (possibly `None`, "not found"), or a raised
`GeocoderTimedOut`/`GeocoderServiceError`. -/
inductive GeoAttempt (α : Type) where
  | ok (res : Option α)
  | err

/-- `geocode_safe(place)`: on exception, `time.sleep(1)` and recurse — there
is no retry bound in the source.  The recursion is modelled against the
sequence of attempt outcomes; the first component is `some v` once some
attempt returns normally, and `none` when every attempt within the modelled
horizon raised (the code is then still retrying — it has not raised).  The
second component counts the attempts actually made. -/
def geocode_safe_run {α : Type} : List (GeoAttempt α) → Option (Option α) × ℕ
  | [] => (none, 0)
  | .ok v :: _ => (some v, 1)
  | .err :: rest =>
    let r := geocode_safe_run rest
    (r.1, r.2 + 1)

/-- Result of `geocode_safe` on a given sequence of attempt outcomes. -/
def geocode_safe {α : Type} (attempts : List (GeoAttempt α)) : Option (Option α) :=
  (geocode_safe_run attempts).1

/-! ## map.py: `haversine` (over `ℝ`) -/

/-- `math.radians`. -/
noncomputable def radians (x : ℝ) : ℝ := x * (Real.pi / 180)

/-- `math.atan2 y x` (four-quadrant arctangent, C semantics). -/
noncomputable def atan2 (y x : ℝ) : ℝ :=
  if 0 < x then Real.arctan (y / x)
  else if x < 0 then
    (if 0 ≤ y then Real.arctan (y / x) + Real.pi else Real.arctan (y / x) - Real.pi)
  else
    (if 0 < y then Real.pi / 2 else if y < 0 then -(Real.pi / 2) else 0)

/-- The intermediate `a` of `haversine`:
`sin(dphi/2)**2 + cos(phi1)*cos(phi2)*sin(dlambda/2)**2`. -/
noncomputable def haversineA (lat1 lon1 lat2 lon2 : ℝ) : ℝ :=
  Real.sin (radians (lat2 - lat1) / 2) ^ 2 +
    Real.cos (radians lat1) * Real.cos (radians lat2) *
      Real.sin (radians (lon2 - lon1) / 2) ^ 2

/-- `haversine(lat1, lon1, lat2, lon2)`: `R * 2 * atan2(sqrt(a), sqrt(1-a))`
with `R = 6371000`. -/
noncomputable def haversine (lat1 lon1 lat2 lon2 : ℝ) : ℝ :=
  6371000 * 2 * atan2 (Real.sqrt (haversineA lat1 lon1 lat2 lon2))
    (Real.sqrt (1 - haversineA lat1 lon1 lat2 lon2))

/-- `fetch_pois` as the source composes it, with `haversine` as the distance
function (coordinates coerced from the rational JSON values). -/
noncomputable def fetch_pois_haversine (lat lon : ℚ) (elements : List Element)
    (limit : ℕ) : List (POI ℝ) :=
  fetch_pois (fun a b c d => haversine a b c d) lat lon elements limit

/-! ## weather.py: `deg_to_text` -/

/-- The eight compass-direction strings. -/
def dirs : List String := ["B", "B-Đ", "Đ", "N-Đ", "N", "N-T", "T", "B-T"]

/-- The argument of `deg_to_text`: a numeric wind direction or any
non-numeric value (`isinstance(deg, (int, float))` fails). -/
inductive WindDeg where
  | num (d : ℚ)
  | nonNumeric

/-- `ix = int((deg + 22.5) // 45) % 8 if isinstance(deg, (int, float)) else 0`:
float floor-division then Python's nonnegative `%`. -/
def windIdx : WindDeg → ℤ
  | .num d => ⌊(d + 45 / 2) / 45⌋ % 8
  | .nonNumeric => 0

/-- `deg_to_text`: index into `dirs`. -/
def deg_to_text (w : WindDeg) : String :=
  dirs.getD (windIdx w).toNat "B"

/-! ## Theorems for C9 and C10 -/

theorem haversineA_symm (lat1 lon1 lat2 lon2 : ℝ) :
    haversineA lat1 lon1 lat2 lon2 = haversineA lat2 lon2 lat1 lon1 := by
  unfold haversineA radians
  have h1 : (lat1 - lat2) * (Real.pi / 180) / 2 =
      -((lat2 - lat1) * (Real.pi / 180) / 2) := by ring
  have h2 : (lon1 - lon2) * (Real.pi / 180) / 2 =
      -((lon2 - lon1) * (Real.pi / 180) / 2) := by ring
  rw [h1, h2, Real.sin_neg, Real.sin_neg, neg_sq, neg_sq]
  ring

theorem haversineA_self (lat lon : ℝ) : haversineA lat lon lat lon = 0 := by
  unfold haversineA radians
  simp

/-- C9: the great-circle distance is symmetric in its two points, is zero on
identical points, and in particular `haversine(0,0,0,0) = 0`. -/
theorem c9_haversine_symm_and_zero :
    (∀ lat1 lon1 lat2 lon2 : ℝ,
        haversine lat1 lon1 lat2 lon2 = haversine lat2 lon2 lat1 lon1) ∧
    (∀ lat lon : ℝ, haversine lat lon lat lon = 0) ∧
    haversine 0 0 0 0 = 0 := by
  have hzero : ∀ lat lon : ℝ, haversine lat lon lat lon = 0 := by
    intro lat lon
    unfold haversine
    rw [haversineA_self]
    norm_num [atan2]
  refine ⟨?_, hzero, hzero 0 0⟩
  intro lat1 lon1 lat2 lon2
  unfold haversine
  rw [haversineA_symm lat1 lon1 lat2 lon2]

/-- C10: `deg_to_text` is total: the computed index is always in `{0,…,7}`,
so the result is always one of the eight direction strings, and a non-numeric
input yields the first string `"B"`. -/
theorem c10_deg_to_text_total :
    (∀ w : WindDeg,
        0 ≤ windIdx w ∧ windIdx w < 8 ∧ (windIdx w).toNat < dirs.length ∧
          deg_to_text w ∈ dirs) ∧
    deg_to_text WindDeg.nonNumeric = "B" := by
  constructor
  · intro w
    have h0 : 0 ≤ windIdx w ∧ windIdx w < 8 := by
      cases w with
      | num d =>
        refine ⟨Int.emod_nonneg _ (by norm_num), Int.emod_lt_of_pos _ (by norm_num)⟩
      | nonNumeric => exact ⟨le_refl 0, by norm_num [windIdx]⟩
    have hlt : (windIdx w).toNat < dirs.length := by
      have : (windIdx w).toNat < 8 := by omega
      simpa [dirs] using this
    refine ⟨h0.1, h0.2, hlt, ?_⟩
    unfold deg_to_text
    rw [List.getD_eq_getElem?_getD, List.getElem?_eq_getElem hlt]
    simp only [Option.getD_some]
    exact List.getElem_mem hlt
  · rfl

/-! ## Theorems for C2 (geocode retry) and C3 (mirror iteration) -/

/-- C2 counterexample: with two failing attempts followed by a successful
third, `geocode_safe` makes a *third* attempt and returns its result — it does
not stop after 2 attempts and does not propagate the failure as an exception,
contradicting the claimed bound of at most 2 attempts. -/
theorem c2_counterexample_third_attempt :
    geocode_safe [GeoAttempt.err, GeoAttempt.err, GeoAttempt.ok (some 0)]
        = some (some (0 : ℕ)) ∧
    (geocode_safe_run [GeoAttempt.err, GeoAttempt.err,
        GeoAttempt.ok (some (0 : ℕ))]).2 = 3 :=
  ⟨rfl, rfl⟩

theorem geocode_safe_run_err {α : Type} (rest : List (GeoAttempt α)) :
    geocode_safe_run (GeoAttempt.err :: rest)
      = ((geocode_safe_run rest).1, (geocode_safe_run rest).2 + 1) := rfl

theorem overpass_request_run_exc {J : Type} {outcome : String → MirrorOutcome J}
    {u : String} (hu : outcome u = MirrorOutcome.exc) (rest : List String) :
    overpass_request_run outcome (u :: rest)
      = ((overpass_request_run outcome rest).1,
         (overpass_request_run outcome rest).2 + 1) := by
  rw [overpass_request_run, hu]

theorem overpass_request_run_ok {J : Type} {outcome : String → MirrorOutcome J}
    {u : String} {j : J} (hu : outcome u = MirrorOutcome.ok j) (rest : List String) :
    overpass_request_run outcome (u :: rest) = (Except.ok j, 1) := by
  rw [overpass_request_run, hu]

/-- C2 (amended): on timeout/service error `geocode_safe` sleeps 1 second and
retries *without bound*: after any number `n` of failing attempts it returns
the result of the first succeeding attempt (having made `n + 1` attempts in
total), and as long as every attempt fails it has not returned (it never
propagates the failure after a fixed number of attempts). -/
theorem c2_geocode_retry_unbounded {α : Type} :
    (∀ (n : ℕ) (v : Option α) (rest : List (GeoAttempt α)),
        geocode_safe (List.replicate n GeoAttempt.err ++ GeoAttempt.ok v :: rest)
            = some v ∧
        (geocode_safe_run
            (List.replicate n GeoAttempt.err ++ GeoAttempt.ok v :: rest)).2 = n + 1) ∧
    (∀ n : ℕ, geocode_safe (List.replicate n (GeoAttempt.err : GeoAttempt α)) = none) := by
  constructor
  · intro n v rest
    induction n with
    | zero => exact ⟨rfl, rfl⟩
    | succ m ih =>
      rw [List.replicate_succ, List.cons_append]
      unfold geocode_safe at ih ⊢
      rw [geocode_safe_run_err, ih.2]
      exact ⟨ih.1, rfl⟩
  · intro n
    induction n with
    | zero => rfl
    | succ m ih =>
      rw [List.replicate_succ]
      unfold geocode_safe at ih ⊢
      rw [geocode_safe_run_err]
      exact ih

/-- C3: the mirror loop returns the first successful mirror's JSON without
contacting any later mirror (having contacted exactly the failing prefix plus
the succeeding mirror); it raises if and only if all configured mirrors fail;
and in the concrete scenario where the first two configured mirrors raise and
the third succeeds, the third's JSON is returned after contacting all 3. -/
theorem c3_overpass_mirror_order {J : Type} :
    (∀ (outcome : String → MirrorOutcome J) (urls₁ urls₂ : List String)
        (url : String) (j : J),
        (∀ u ∈ urls₁, outcome u = MirrorOutcome.exc) →
        outcome url = MirrorOutcome.ok j →
        overpass_request_run outcome (urls₁ ++ url :: urls₂)
            = (Except.ok j, urls₁.length + 1)) ∧
    (∀ outcome : String → MirrorOutcome J,
        (overpass_request outcome).1 = Except.error () ↔
          ∀ u ∈ OVERPASS_URLS, outcome u = MirrorOutcome.exc) ∧
    (∀ j : J,
        overpass_request (fun u =>
            if u = "https://overpass.openstreetmap.ru/api/interpreter" then
              MirrorOutcome.ok j
            else MirrorOutcome.exc)
          = (Except.ok j, 3)) := by
  refine ⟨?_, ?_, ?_⟩
  · intro outcome urls₁ urls₂ url j hexc hok
    induction urls₁ with
    | nil =>
      rw [List.nil_append, overpass_request_run_ok hok]
      simp
    | cons u us ih =>
      have hu : outcome u = MirrorOutcome.exc := hexc u (by simp)
      have ihs := ih (fun u' hu' => hexc u' (by simp [hu']))
      rw [List.cons_append, overpass_request_run_exc hu, ihs]
      simp

  · intro outcome
    have key : ∀ urls : List String,
        (overpass_request_run outcome urls).1 = Except.error () ↔
          ∀ u ∈ urls, outcome u = MirrorOutcome.exc := by
      intro urls
      induction urls with
      | nil => simp [overpass_request_run]
      | cons u us ih =>
        cases houtcome : outcome u with
        | ok j => simp [overpass_request_run, houtcome]
        | exc => simpa [overpass_request_run, houtcome] using ih
    exact key OVERPASS_URLS
  · intro j
    simp [overpass_request, overpass_request_run, OVERPASS_URLS]

/-- Witness for C3: two mirrors, the first failing, the second succeeding —
the loop returns the second mirror's JSON after contacting exactly 2 mirrors. -/
theorem c3_overpass_mirror_order_witness :
    overpass_request_run
        (fun u => if u = "b" then MirrorOutcome.ok (0 : ℕ) else MirrorOutcome.exc)
        (["a"] ++ "b" :: [])
      = (Except.ok 0, (["a"] : List String).length + 1) :=
  c3_overpass_mirror_order.1
    (fun u => if u = "b" then MirrorOutcome.ok (0 : ℕ) else MirrorOutcome.exc)
    ["a"] [] "b" 0 (by intro u hu; simp at hu; simp [hu]) (by simp)

/-! ## POI normalization: dedup characterization and sort lemmas (C1, C4, C5) -/

/-- First-occurrence deduplication of the raw elements on their `(type, id)`
key, starting from an initial `seen` set: exactly the elements the
`fetch_pois` loop does *not* skip at its `continue` guards for id/duplicates.
Note that the kept first occurrence reserves its key even when it is later
dropped for unresolvable coordinates. -/
def dedupKeyed : List Element → List (String × ℤ) → List Element
  | [], _ => []
  | e :: rest, seen =>
    match keyOf e with
    | none => dedupKeyed rest seen
    | some k =>
      if k ∈ seen then dedupKeyed rest seen
      else e :: dedupKeyed rest (k :: seen)

theorem normLoop_eq_filterMap {δ : Type} (dist : ℚ → ℚ → ℚ → ℚ → δ)
    (lat lon : ℚ) :
    ∀ (els : List Element) (seen : List (String × ℤ)),
      normLoop dist lat lon els seen
        = (dedupKeyed els seen).filterMap (buildPOI dist lat lon) := by
  intro els
  induction els with
  | nil => intro seen; rfl
  | cons e rest ih =>
    intro seen
    by_cases hk : ∃ k, keyOf e = some k
    · obtain ⟨k, hk⟩ := hk
      by_cases hmem : k ∈ seen
      · simp only [normLoop, dedupKeyed, hk, hmem, if_true, ih]
      · have hbuild : ∀ r, buildPOI dist lat lon e = r → True := fun _ _ => trivial
        cases hb : buildPOI dist lat lon e with
        | some p =>
          simp only [normLoop, dedupKeyed, hk, hmem, if_false, hb,
            List.filterMap_cons, ih]
        | none =>
          simp only [normLoop, dedupKeyed, hk, hmem, if_false, hb,
            List.filterMap_cons, ih]
    · have hk' : keyOf e = none := Option.eq_none_iff_forall_not_mem.mpr
        (fun k hmem => hk ⟨k, hmem⟩)
      simp only [normLoop, dedupKeyed, hk', ih]

theorem dedupKeyed_key_isSome :
    ∀ (els : List Element) (seen : List (String × ℤ)) (e : Element),
      e ∈ dedupKeyed els seen → (keyOf e).isSome := by
  intro els
  induction els with
  | nil => intro seen e h; simp [dedupKeyed] at h
  | cons e₀ rest ih =>
    intro seen e h
    cases hk : keyOf e₀ with
    | none =>
      simp only [dedupKeyed, hk] at h
      exact ih seen e h
    | some k₀ =>
      simp only [dedupKeyed, hk] at h
      by_cases hmem : k₀ ∈ seen
      · rw [if_pos hmem] at h
        exact ih seen e h
      · rw [if_neg hmem] at h
        rcases List.mem_cons.mp h with h0 | h1
        · subst h0; simp [hk]
        · exact ih _ e h1

theorem dedupKeyed_key_not_seen :
    ∀ (els : List Element) (seen : List (String × ℤ)) (e : Element),
      e ∈ dedupKeyed els seen → ∀ k, keyOf e = some k → k ∉ seen := by
  intro els
  induction els with
  | nil => intro seen e h; simp [dedupKeyed] at h
  | cons e₀ rest ih =>
    intro seen e h k hke
    cases hk : keyOf e₀ with
    | none =>
      simp only [dedupKeyed, hk] at h
      exact ih seen e h k hke
    | some k₀ =>
      simp only [dedupKeyed, hk] at h
      by_cases hmem : k₀ ∈ seen
      · rw [if_pos hmem] at h
        exact ih seen e h k hke
      · rw [if_neg hmem] at h
        rcases List.mem_cons.mp h with h0 | h1
        · subst h0
          rw [hk] at hke
          cases hke
          exact hmem
        · intro hks
          exact ih _ e h1 k hke (List.mem_cons_of_mem _ hks)

theorem dedupKeyed_keys_pairwise :
    ∀ (els : List Element) (seen : List (String × ℤ)),
      (dedupKeyed els seen).Pairwise (fun a b => keyOf a ≠ keyOf b) := by
  intro els
  induction els with
  | nil => intro seen; simp [dedupKeyed]
  | cons e₀ rest ih =>
    intro seen
    cases hk : keyOf e₀ with
    | none => simp only [dedupKeyed, hk]; exact ih seen
    | some k₀ =>
      simp only [dedupKeyed, hk]
      by_cases hmem : k₀ ∈ seen
      · rw [if_pos hmem]; exact ih seen
      · rw [if_neg hmem]
        refine List.Pairwise.cons ?_ (ih _)
        intro b hb heq
        obtain ⟨kb, hkb⟩ := Option.isSome_iff_exists.mp
          (dedupKeyed_key_isSome rest _ b hb)
        have : kb ∉ k₀ :: seen := dedupKeyed_key_not_seen rest _ b hb kb hkb
        rw [hk, hkb] at heq
        cases heq
        exact this (List.mem_cons_self _ _)

theorem dedupKeyed_find? :
    ∀ (els : List Element) (seen : List (String × ℤ)) (e : Element)
      (k : String × ℤ), e ∈ dedupKeyed els seen → keyOf e = some k →
      els.find? (fun e' => keyOf e' == some k) = some e := by
  intro els
  induction els with
  | nil => intro seen e k h; simp [dedupKeyed] at h
  | cons e₀ rest ih =>
    intro seen e k h hke
    cases hk : keyOf e₀ with
    | none =>
      simp only [dedupKeyed, hk] at h
      rw [List.find?_cons_of_neg _ (by simp [hk])]
      exact ih seen e k h hke
    | some k₀ =>
      simp only [dedupKeyed, hk] at h
      by_cases hmem : k₀ ∈ seen
      · rw [if_pos hmem] at h
        have hne : k ≠ k₀ := by
          intro hkk
          exact dedupKeyed_key_not_seen rest seen e h k hke (hkk ▸ hmem)
        rw [List.find?_cons_of_neg _ (by simp [hk, hne.symm])]
        exact ih seen e k h hke
      · rw [if_neg hmem] at h
        rcases List.mem_cons.mp h with h0 | h1
        · subst h0
          rw [hk] at hke
          cases hke
          rw [List.find?_cons_of_pos _ (by simp [hk])]
        · have hne : k ≠ k₀ := by
            intro hkk
            exact dedupKeyed_key_not_seen rest _ e h1 k hke
              (hkk ▸ List.mem_cons_self _ _)
          rw [List.find?_cons_of_neg _ (by simp [hk, hne.symm])]
          exact ih _ e k h1 hke

theorem buildPOI_key {δ : Type} (dist : ℚ → ℚ → ℚ → ℚ → δ) (lat lon : ℚ)
    (e : Element) (p : POI δ) (h : buildPOI dist lat lon e = some p) :
    keyOf e = some (p.osm_type, p.id) := by
  unfold buildPOI at h
  cases hk : keyOf e with
  | none => rw [hk] at h; cases h
  | some k =>
    simp only [hk] at h
    by_cases hc : (truthyQ (el_lat e) && truthyQ (el_lon e)) = true
    · rw [if_pos hc] at h
      cases h
      rfl
    · rw [if_neg hc] at h
      cases h

theorem normalizeAll_keys_pairwise {δ : Type} (dist : ℚ → ℚ → ℚ → ℚ → δ)
    (lat lon : ℚ) (elements : List Element) :
    (normalizeAll dist lat lon elements).Pairwise
      (fun a b => (a.osm_type, a.id) ≠ (b.osm_type, b.id)) := by
  rw [normalizeAll, normLoop_eq_filterMap]
  refine List.Pairwise.filterMap _ ?_ (dedupKeyed_keys_pairwise elements [])
  intro a b hab x hx y hy
  intro hxy
  apply hab
  rw [buildPOI_key dist lat lon a x hx, buildPOI_key dist lat lon b y hy, hxy]

theorem normalizeAll_first_occurrence {δ : Type} (dist : ℚ → ℚ → ℚ → ℚ → δ)
    (lat lon : ℚ) (elements : List Element) (p : POI δ)
    (hp : p ∈ normalizeAll dist lat lon elements) :
    ∃ e, elements.find? (fun e' => keyOf e' == some (p.osm_type, p.id)) = some e ∧
      buildPOI dist lat lon e = some p := by
  rw [normalizeAll, normLoop_eq_filterMap] at hp
  obtain ⟨e, he, hbe⟩ := List.mem_filterMap.mp hp
  exact ⟨e, dedupKeyed_find? elements [] e _ he (buildPOI_key dist lat lon e p hbe),
    hbe⟩

theorem fetch_pois_mem_normalizeAll {δ : Type} [LinearOrder δ]
    (dist : ℚ → ℚ → ℚ → ℚ → δ) (lat lon : ℚ) (elements : List Element)
    (limit : ℕ) (p : POI δ) (hp : p ∈ fetch_pois dist lat lon elements limit) :
    p ∈ normalizeAll dist lat lon elements := by
  rw [fetch_pois] at hp
  have h1 := (List.take_sublist limit _).mem hp
  exact List.mem_mergeSort.mp h1

theorem keyOf_isSome_iff (e : Element) :
    (keyOf e).isSome = true ↔ ∃ i, e.id = some i ∧ i ≠ 0 := by
  unfold keyOf
  cases e.id with
  | none => simp
  | some i =>
    by_cases hi : i = 0
    · simp [hi]
    · simp [hi]

theorem truthyQ_iff (o : Option ℚ) :
    truthyQ o = true ↔ ∃ x, o = some x ∧ x ≠ 0 := by
  cases o with
  | none => simp [truthyQ]
  | some x => simp [truthyQ]

theorem buildPOI_isSome {δ : Type} (dist : ℚ → ℚ → ℚ → ℚ → δ) (lat lon : ℚ)
    (e : Element) :
    (buildPOI dist lat lon e).isSome
      = ((keyOf e).isSome && (truthyQ (el_lat e) && truthyQ (el_lon e))) := by
  unfold buildPOI
  cases hk : keyOf e with
  | none => simp
  | some k =>
    by_cases hc : (truthyQ (el_lat e) && truthyQ (el_lon e)) = true
    · simp [hc]
    · simp [hc, Bool.eq_false_iff.mpr hc]

/-- C1: for every raw element list, center and `limit > 0`, `fetch_pois`
returns at most `limit` POIs, non-decreasingly ordered by `distance_m`, and
they are the `limit` smallest-distance entries of the full deduplicated set:
the returned list together with some `excluded` list is a permutation of the
full normalized set, and no returned POI has a larger `distance_m` than any
excluded one (sort-then-truncate). -/
theorem c1_fetch_pois_sort_truncate {δ : Type} [LinearOrder δ]
    (dist : ℚ → ℚ → ℚ → ℚ → δ) (lat lon : ℚ) (elements : List Element)
    (limit : ℕ) (hlim : 0 < limit) :
    (fetch_pois dist lat lon elements limit).length ≤ limit ∧
    (fetch_pois dist lat lon elements limit).Pairwise
      (fun a b => a.distance_m ≤ b.distance_m) ∧
    ∃ excluded : List (POI δ),
      (fetch_pois dist lat lon elements limit ++ excluded).Perm
        (normalizeAll dist lat lon elements) ∧
      ∀ p ∈ fetch_pois dist lat lon elements limit, ∀ q ∈ excluded,
        p.distance_m ≤ q.distance_m := by
  have htrans : ∀ a b c : POI δ,
      decide (a.distance_m ≤ b.distance_m) →
      decide (b.distance_m ≤ c.distance_m) →
      decide (a.distance_m ≤ c.distance_m) := by
    intro a b c hab hbc
    simp only [decide_eq_true_eq] at hab hbc ⊢
    exact le_trans hab hbc
  have htotal : ∀ a b : POI δ,
      (decide (a.distance_m ≤ b.distance_m) ||
        decide (b.distance_m ≤ a.distance_m)) = true := by
    intro a b
    simp only [Bool.or_eq_true, decide_eq_true_eq]
    exact le_total _ _
  have hsorted : ((normalizeAll dist lat lon elements).mergeSort
      (fun a b => decide (a.distance_m ≤ b.distance_m))).Pairwise
        (fun a b : POI δ => a.distance_m ≤ b.distance_m) := by
    refine (List.sorted_mergeSort htrans htotal
      (normalizeAll dist lat lon elements)).imp ?_
    intro a b h
    exact of_decide_eq_true h
  refine ⟨?_, ?_, ?_⟩
  · rw [fetch_pois]
    exact List.length_take_le _ _
  · rw [fetch_pois]
    exact List.Pairwise.sublist (List.take_sublist _ _) hsorted
  · refine ⟨((normalizeAll dist lat lon elements).mergeSort
      (fun a b => decide (a.distance_m ≤ b.distance_m))).drop limit, ?_, ?_⟩
    · rw [fetch_pois, List.take_append_drop]
      exact List.mergeSort_perm _ _
    · rw [fetch_pois]
      have h2 := hsorted
      rw [← List.take_append_drop limit ((normalizeAll dist lat lon elements).mergeSort
        (fun a b => decide (a.distance_m ≤ b.distance_m)))] at h2
      exact fun p hp q hq => (List.pairwise_append.mp h2).2.2 p hp q hq

/-- The end-to-end demo elements of the spec (one node, its duplicate, one way
with only a centroid). -/
def elemsDemo : List Element :=
  [ { id := some 1, etype := some "node", tags := [("name", "Cafe A")],
      lat := some 21.029, lon := some 105.855, center := none },
    { id := some 1, etype := some "node", tags := [("name", "Cafe A")],
      lat := some 21.029, lon := some 105.855, center := none },
    { id := some 2, etype := some "way", tags := [("brand", "Cafe B")],
      lat := none, lon := none,
      center := some { lat := some 21.027, lon := some 105.853 } } ]

theorem c1_fetch_pois_sort_truncate_witness :
    0 < 20 ∧
    ((fetch_pois sqDist 21.0285 105.8542 elemsDemo 20).length ≤ 20 ∧
     (fetch_pois sqDist 21.0285 105.8542 elemsDemo 20).Pairwise
       (fun a b => a.distance_m ≤ b.distance_m) ∧
     ∃ excluded : List (POI ℚ),
       (fetch_pois sqDist 21.0285 105.8542 elemsDemo 20 ++ excluded).Perm
         (normalizeAll sqDist 21.0285 105.8542 elemsDemo) ∧
       ∀ p ∈ fetch_pois sqDist 21.0285 105.8542 elemsDemo 20, ∀ q ∈ excluded,
         p.distance_m ≤ q.distance_m) :=
  ⟨by norm_num,
   c1_fetch_pois_sort_truncate sqDist 21.0285 105.8542 elemsDemo 20 (by norm_num)⟩

/-- The input refuting C4: two elements with the same `(type, id)` pair where
the *first* occurrence has no resolvable coordinates and the second has
valid ones. -/
def c4Elems : List Element :=
  [ { id := some 1, etype := some "node", tags := [], lat := none, lon := none,
      center := none },
    { id := some 1, etype := some "node", tags := [], lat := some 21,
      lon := some 105, center := none } ]

/-- C4 counterexample: on `c4Elems` — a raw element list containing two
elements with the same `(type, id)` pair — `fetch_pois` emits *zero* POIs for
that pair, not exactly one: the first occurrence reserves the key in `seen`
before the coordinate check drops it, and the later duplicate (which has
coordinates) is then skipped as already seen. -/
theorem c4_counterexample_zero_pois_for_duplicate_pair :
    fetch_pois sqDist 21 105 c4Elems 10 = [] := by
  have h : normalizeAll sqDist 21 105 c4Elems = [] := by decide
  rw [fetch_pois, h, List.mergeSort_nil, List.take_nil]

/-- C4 (amended): the returned POIs are pairwise unique by `(osm_type, id)`,
and each returned POI is built from the *first* element in upstream order
bearing its key (later duplicates are dropped); at most one — but possibly
zero — POIs are emitted per key, since a first occurrence without resolvable
coordinates still blocks all its later duplicates. -/
theorem c4_dedup_first_occurrence {δ : Type} [LinearOrder δ]
    (dist : ℚ → ℚ → ℚ → ℚ → δ) (lat lon : ℚ) (elements : List Element)
    (limit : ℕ) :
    (fetch_pois dist lat lon elements limit).Pairwise
      (fun a b => (a.osm_type, a.id) ≠ (b.osm_type, b.id)) ∧
    ∀ p ∈ fetch_pois dist lat lon elements limit,
      ∃ e, elements.find? (fun e' => keyOf e' == some (p.osm_type, p.id)) = some e ∧
        buildPOI dist lat lon e = some p := by
  constructor
  · have hfull := normalizeAll_keys_pairwise dist lat lon elements
    have hperm := List.mergeSort_perm (normalizeAll dist lat lon elements)
      (fun a b => decide (a.distance_m ≤ b.distance_m))
    have hpair := (hperm.pairwise_iff (fun h heq => h heq.symm)).mpr hfull
    rw [fetch_pois]
    exact List.Pairwise.sublist (List.take_sublist _ _) hpair
  · intro p hp
    exact normalizeAll_first_occurrence dist lat lon elements p
      (fetch_pois_mem_normalizeAll dist lat lon elements limit p hp)

/-- Elements for the C4 witness: a duplicated `(node, 1)` pair whose first
occurrence has valid coordinates. -/
def c4WElems : List Element :=
  [ { id := some 1, etype := some "node", tags := [], lat := some 21,
      lon := some 105, center := none },
    { id := some 1, etype := some "node", tags := [], lat := some 22,
      lon := some 106, center := none } ]

/-- The single POI produced from `c4WElems` (built from the first
occurrence). -/
def c4WPoi : POI ℚ :=
  { id := 1, osm_type := "node", name := "(không tên)", lat := 21, lon := 105,
    distance_m := sqDist 0 0 21 105, category := none, address := "" }

theorem c4_dedup_first_occurrence_witness :
    ∃ e, c4WElems.find?
        (fun e' => keyOf e' == some (c4WPoi.osm_type, c4WPoi.id)) = some e ∧
      buildPOI sqDist 0 0 e = some c4WPoi := by
  have hnorm : normalizeAll sqDist 0 0 c4WElems = [c4WPoi] := by
    simp [normalizeAll, normLoop, c4WElems, c4WPoi, keyOf, buildPOI, el_lat,
      el_lon, pyOrQ, truthyQ, poiName, poiCategory, make_address, tagGet,
      pyOrS, truthyS, sqDist, String.intercalate]
  have hfetch : fetch_pois sqDist 0 0 c4WElems 5 = [c4WPoi] := by
    rw [fetch_pois, hnorm, List.mergeSort_singleton]
    rfl
  exact (c4_dedup_first_occurrence sqDist 0 0 c4WElems 5).2 c4WPoi
    (by rw [hfetch]; exact List.mem_singleton.mpr rfl)

/-- The input refuting C5: an element with id `1` and *direct* coordinate
fields `lat = 0.0`, `lon = 105.0` (no `center`). -/
def c5Elem : Element :=
  { id := some 1, etype := some "node", tags := [], lat := some 0,
    lon := some 105, center := none }

/-- C5 counterexample: `c5Elem` has an id and resolvable coordinates (direct
`lat`/`lon` fields are present), yet normalization emits no POI for it: the
truthiness test `e.get("lat") or …` / `if not el_lat` treats the present value
`0.0` as missing. -/
theorem c5_counterexample_zero_latitude :
    normalizeAll sqDist 21 105 [c5Elem] = [] ∧
    c5Elem.id = some 1 ∧ c5Elem.lat = some 0 ∧ c5Elem.lon = some 105 := by
  refine ⟨by decide, rfl, rfl, rfl⟩

/-- C5 (amended): the loop body emits a POI for an element (not previously
seen) exactly when its id is present *and nonzero* and its resolved latitude
and longitude are each present *and nonzero*, where resolution takes the
direct `lat`/`lon` field when present and nonzero and otherwise falls back to
the `center` sub-object's field; and the full normalization is exactly
first-occurrence dedup followed by this per-element filter. -/
theorem c5_skip_characterization {δ : Type} (dist : ℚ → ℚ → ℚ → ℚ → δ)
    (lat lon : ℚ) (elements : List Element) (e : Element) :
    normalizeAll dist lat lon elements
      = (dedupKeyed elements []).filterMap (buildPOI dist lat lon) ∧
    ((buildPOI dist lat lon e).isSome = true ↔
      ((∃ i, e.id = some i ∧ i ≠ 0) ∧
       (∃ x, el_lat e = some x ∧ x ≠ 0) ∧
       (∃ y, el_lon e = some y ∧ y ≠ 0))) := by
  constructor
  · rw [normalizeAll, normLoop_eq_filterMap]
  · rw [buildPOI_isSome]
    simp only [Bool.and_eq_true, keyOf_isSome_iff, truthyQ_iff]

theorem c5_skip_characterization_witness :
    normalizeAll sqDist 0 0 [c5Elem]
      = (dedupKeyed [c5Elem] []).filterMap (buildPOI sqDist 0 0) ∧
    ((buildPOI sqDist 0 0 c5Elem).isSome = true ↔
      ((∃ i, c5Elem.id = some i ∧ i ≠ 0) ∧
       (∃ x, el_lat c5Elem = some x ∧ x ≠ 0) ∧
       (∃ y, el_lon c5Elem = some y ∧ y ≠ 0))) :=
  c5_skip_characterization sqDist 0 0 [c5Elem] c5Elem

/-! ## weather.py: payload structures -/

/-- An entry of a `"weather"` array (`{"description": …, "icon": …}`). -/
structure WObj where
  description : Option String
  icon : Option String

/-- `(x.get("weather") or [{}])[0]`: first entry, or an empty object when the
array is absent or empty (an absent array is modelled as `[]`; the code
treats both identically through `or`). -/
def headW (ws : List WObj) : WObj :=
  ws.headD { description := none, icon := none }

/-- A `"main"` sub-object of the current/forecast 2.5 payloads. -/
structure MainObj where
  temp : Option ℚ
  feels_like : Option ℚ
  humidity : Option ℚ
  pressure : Option ℚ

/-- A `"wind"` sub-object. -/
structure WindObj where
  speed : Option ℚ
  deg : Option ℚ

/-- A `"clouds"` sub-object. -/
structure CloudsObj where
  all : Option ℚ

/-- A `"coord"` sub-object (only `lon` is consumed). -/
structure CoordObj where
  lon : Option ℚ

/-- The legacy current-conditions payload (the fields the normalizer reads).
An absent and an empty nested dictionary are modelled alike as `none`, since
the code reads them through `(cur.get(k) or {})`. -/
structure CurPayload where
  timezone : Option ℤ
  coord : Option CoordObj
  dt : Option ℤ
  main : Option MainObj
  wind : Option WindObj
  clouds : Option CloudsObj
  weather : List WObj

/-- One entry of the legacy 3-hour forecast `"list"`. -/
structure FCItem where
  dt : Option ℤ
  main : Option MainObj
  pop : Option ℚ
  wind : Option WindObj
  weather : List WObj

/-- The legacy forecast payload (`fc.get("list") or []` is modelled as the
list itself, `[]` for absent). -/
structure FCPayload where
  list : List FCItem

/-- `temp` sub-object of a one-call daily entry. -/
structure TempObj where
  min : Option ℚ
  max : Option ℚ

/-- One-call `current` object (absent or empty modelled as `none` at the
payload level, since `payload.get("current", {})` is falsy in both cases). -/
structure OCCurrent where
  dt : Option ℤ
  temp : Option ℚ
  feels_like : Option ℚ
  humidity : Option ℚ
  wind_speed : Option ℚ
  wind_deg : Option ℚ
  uvi : Option ℚ
  pressure : Option ℚ
  clouds : Option ℚ
  pop : Option ℚ
  weather : List WObj

/-- One-call hourly entry. -/
structure OCHour where
  dt : Option ℤ
  temp : Option ℚ
  pop : Option ℚ
  humidity : Option ℚ
  wind_speed : Option ℚ
  weather : List WObj

/-- One-call daily entry. -/
structure OCDay where
  dt : Option ℤ
  temp : Option TempObj
  pop : Option ℚ
  humidity : Option ℚ
  wind_speed : Option ℚ
  weather : List WObj

/-- One-call payload. -/
structure OCPayload where
  timezone_offset : Option ℤ
  current : Option OCCurrent
  hourly : List OCHour
  daily : List OCDay

/-! ## weather.py: normalized output shapes -/

/-- `_to_local_ts`: shifted pseudo-local timestamp. -/
def to_local_ts (ts_utc tz_offset : ℤ) : ℤ := ts_utc + tz_offset

/-- Normalized one-call current conditions (`norm_current`'s dict). -/
structure CurrentPoint where
  dt_local : ℤ
  temp : Option ℚ
  feels_like : Option ℚ
  humidity : Option ℚ
  wind_speed : Option ℚ
  wind_deg : Option ℚ
  uvi : Option ℚ
  pressure : Option ℚ
  clouds : Option ℚ
  pop : ℚ
  desc : Option String
  icon : Option String

/-- Normalized hourly point (`norm_hour` and the legacy hourly dicts share
this shape). -/
structure HourPoint where
  dt_local : ℤ
  temp : Option ℚ
  pop : ℚ
  humidity : Option ℚ
  wind_speed : Option ℚ
  desc : Option String
  icon : Option String

/-- Normalized one-call daily point (`norm_day`'s dict). -/
structure DayPoint where
  dt_local : ℤ
  t_min : Option ℚ
  t_max : Option ℚ
  pop : ℚ
  humidity : Option ℚ
  wind_speed : Option ℚ
  desc : Option String
  icon : Option String

/-- The record returned by `_normalize_onecall`. -/
structure OnecallRecord where
  tz_offset : ℤ
  current : Option CurrentPoint
  hourly : List HourPoint
  daily : List DayPoint

/-! ## weather.py: `_normalize_onecall` -/

/-- `norm_current`: `int(c["dt"])` raises `KeyError` when `dt` is absent,
modelled as `Except.error`; every other field is optional. -/
def norm_current (tz : ℤ) (c : OCCurrent) : Except Unit CurrentPoint :=
  match c.dt with
  | none => .error ()
  | some dt =>
    .ok { dt_local := to_local_ts dt tz
          temp := c.temp
          feels_like := c.feels_like
          humidity := c.humidity
          wind_speed := c.wind_speed
          wind_deg := c.wind_deg
          uvi := c.uvi
          pressure := c.pressure
          clouds := c.clouds
          pop := c.pop.getD 0
          desc := (headW c.weather).description
          icon := (headW c.weather).icon }

/-- `norm_hour`. -/
def norm_hour (tz : ℤ) (h : OCHour) : Except Unit HourPoint :=
  match h.dt with
  | none => .error ()
  | some dt =>
    .ok { dt_local := to_local_ts dt tz
          temp := h.temp
          pop := h.pop.getD 0
          humidity := h.humidity
          wind_speed := h.wind_speed
          desc := (headW h.weather).description
          icon := (headW h.weather).icon }

/-- `temps = d.get("temp") or {}`. -/
def dayTemps (d : OCDay) : TempObj :=
  d.temp.getD { min := none, max := none }

/-- `norm_day`. -/
def norm_day (tz : ℤ) (d : OCDay) : Except Unit DayPoint :=
  match d.dt with
  | none => .error ()
  | some dt =>
    .ok { dt_local := to_local_ts dt tz
          t_min := (dayTemps d).min
          t_max := (dayTemps d).max
          pop := d.pop.getD 0
          humidity := d.humidity
          wind_speed := d.wind_speed
          desc := (headW d.weather).description
          icon := (headW d.weather).icon }

/-- `_normalize_onecall`: `tz` from `timezone_offset` (default 0); `current`
taken verbatim (normalized) when truthy, else `None`; first 24 hourly and
first 8 daily entries. -/
def normalize_onecall (p : OCPayload) : Except Unit OnecallRecord := do
  let tz := p.timezone_offset.getD 0
  let current ← match p.current with
    | none => pure none
    | some c => Except.map some (norm_current tz c)
  let hourly ← (p.hourly.take 24).mapM (norm_hour tz)
  let daily ← (p.daily.take 8).mapM (norm_day tz)
  pure { tz_offset := tz, current := current, hourly := hourly, daily := daily }

/-! ## weather.py: `_normalize_from_current_forecast` -/

/-- Python 3's one-argument `round` (half-to-even), as used in
`int(round(x))`. -/
def pyRound (q : ℚ) : ℤ :=
  if q - ⌊q⌋ < 1 / 2 then ⌊q⌋
  else if 1 / 2 < q - ⌊q⌋ then ⌊q⌋ + 1
  else if ⌊q⌋ % 2 = 0 then ⌊q⌋ else ⌊q⌋ + 1

/-- `cur.get("coord", {}).get("lon", 0)`. -/
def legacyLon (cur : CurPayload) : ℚ :=
  match cur.coord with
  | some c => c.lon.getD 0
  | none => 0

/-- `tz_offset = int(cur.get("timezone", 0))`, replaced by
`int(round(lon * 240))` when it is exactly 0. -/
def legacy_tz_offset (cur : CurPayload) : ℤ :=
  let t := cur.timezone.getD 0
  if t = 0 then pyRound (legacyLon cur * 240) else t

/-- Normalized legacy current conditions (its dict has no `uvi` and a
literal `pop = 0`). -/
structure CurrentPointL where
  dt_local : ℤ
  temp : Option ℚ
  feels_like : Option ℚ
  humidity : Option ℚ
  wind_speed : Option ℚ
  wind_deg : Option ℚ
  pressure : Option ℚ
  clouds : Option ℚ
  desc : Option String
  icon : Option String
  pop : ℚ

/-- The legacy `current` dict. -/
def legacyCurrent (tz : ℤ) (cur : CurPayload) : CurrentPointL :=
  { dt_local := to_local_ts (cur.dt.getD 0) tz
    temp := match cur.main with | some m => m.temp | none => none
    feels_like := match cur.main with | some m => m.feels_like | none => none
    humidity := match cur.main with | some m => m.humidity | none => none
    wind_speed := match cur.wind with | some w => w.speed | none => none
    wind_deg := match cur.wind with | some w => w.deg | none => none
    pressure := match cur.main with | some m => m.pressure | none => none
    clouds := match cur.clouds with | some c => c.all | none => none
    desc := (headW cur.weather).description
    icon := (headW cur.weather).icon
    pop := 0 }

/-- `(it.get("main") or {}).get("temp")`. -/
def itemTemp (it : FCItem) : Option ℚ :=
  match it.main with
  | some m => m.temp
  | none => none

/-- `it.get("pop", 0)`. -/
def itemPop (it : FCItem) : ℚ := it.pop.getD 0

/-- The shifted timestamp `ts = _to_local_ts(int(it.get("dt", 0)), tz_offset)`. -/
def localDayTs (tz : ℤ) (it : FCItem) : ℤ := to_local_ts (it.dt.getD 0) tz

/-- The local calendar day of a forecast entry.  The source computes
`time.strftime("%Y-%m-%d", time.gmtime(ts))`; two shifted timestamps get the
same date string exactly when they lie in the same Unix day (Unix days have
exactly 86400 seconds), i.e. when their floor-divisions by 86400 agree. -/
def localDay (tz : ℤ) (it : FCItem) : ℤ := Int.fdiv (localDayTs tz it) 86400

/-- One legacy daily group (the `by_date[day]` dict). -/
structure DayGroup where
  dt_local : ℤ
  t_min : Option ℚ
  t_max : Option ℚ
  pop : ℚ
  desc : Option String
  icon : Option String

/-- Python `min(a, b)` where either operand may be `None`: comparing `None`
with anything (including `None`) raises `TypeError`. -/
def pyMin : Option ℚ → Option ℚ → Except Unit (Option ℚ)
  | some a, some b => .ok (some (min a b))
  | _, _ => .error ()

/-- Python `max(a, b)` under the same convention. -/
def pyMax : Option ℚ → Option ℚ → Except Unit (Option ℚ)
  | some a, some b => .ok (some (max a b))
  | _, _ => .error ()

/-- The `for it in (fc.get("list") or [])` grouping loop, with `by_date` as an
insertion-ordered association list keyed by the local calendar day (Python
dicts preserve insertion order; updating an existing key keeps its place). -/
def buildDaily (tz : ℤ) :
    List FCItem → List (ℤ × DayGroup) → Except Unit (List (ℤ × DayGroup))
  | [], acc => .ok acc
  | it :: rest, acc =>
    let ts := localDayTs tz it
    let day := localDay tz it
    let w := headW it.weather
    match (acc.find? (fun p => p.1 == day)).map (fun p => p.2) with
    | none =>
      buildDaily tz rest (acc ++ [(day,
        { dt_local := ts, t_min := itemTemp it, t_max := itemTemp it,
          pop := itemPop it, desc := w.description, icon := w.icon })])
    | some g => do
      let tmin ← pyMin g.t_min (itemTemp it)
      let tmax ← pyMax g.t_max (itemTemp it)
      buildDaily tz rest (acc.map (fun p =>
        if p.1 == day then
          (day, { dt_local := g.dt_local, t_min := tmin, t_max := tmax,
                  pop := max g.pop (itemPop it), desc := g.desc, icon := g.icon })
        else p))

/-- The record returned by `_normalize_from_current_forecast`. -/
structure LegacyRecord where
  tz_offset : ℤ
  current : CurrentPointL
  hourly : List HourPoint
  daily : List DayGroup

/-- The legacy hourly dict for one forecast entry. -/
def legacyHour (tz : ℤ) (it : FCItem) : HourPoint :=
  { dt_local := localDayTs tz it
    temp := itemTemp it
    pop := itemPop it
    humidity := match it.main with | some m => m.humidity | none => none
    wind_speed := match it.wind with | some w => w.speed | none => none
    desc := (headW it.weather).description
    icon := (headW it.weather).icon }

/-- `_normalize_from_current_forecast`: tz offset, flat current dict, first
24 forecast entries as hourly, day groups truncated to 7 as daily. -/
def normalize_from_current_forecast (cur : CurPayload) (fc : FCPayload) :
    Except Unit LegacyRecord := do
  let tz := legacy_tz_offset cur
  let groups ← buildDaily tz fc.list []
  pure { tz_offset := tz
         current := legacyCurrent tz cur
         hourly := (fc.list.take 24).map (legacyHour tz)
         daily := (groups.map (fun p => p.2)).take 7 }

/-! ## Spec-side description of the legacy daily grouping (for C7) -/

/-- Day keys in the order they are first encountered. -/
def firstKeys (ds : List ℤ) : List ℤ :=
  ds.foldl (fun acc d => if d ∈ acc then acc else acc ++ [d]) []

/-- A junk forecast entry (only used as `headD` default on provably nonempty
groups). -/
def junkFC : FCItem :=
  { dt := none, main := none, pop := none, wind := none, weather := [] }

/-- Aggregation of one day's group, in the spec's words: timestamp and
description/icon from the group's first entry, `t_min`/`t_max` the
minimum/maximum temperature over the group, `pop` the maximum precipitation
probability over the group. -/
def aggDay (tz : ℤ) (grp : List FCItem) : DayGroup :=
  { dt_local := localDayTs tz (grp.headD junkFC)
    t_min := (grp.filterMap itemTemp).min?
    t_max := (grp.filterMap itemTemp).max?
    pop := ((grp.map itemPop).max?).getD 0
    desc := (headW (grp.headD junkFC).weather).description
    icon := (headW (grp.headD junkFC).weather).icon }

/-- The spec's daily sequence (before the 7-group truncation): forecast
entries grouped by the local calendar date of their tz-shifted timestamp, in
first-encounter order. -/
def dailySpec (tz : ℤ) (list : List FCItem) : List DayGroup :=
  (firstKeys (list.map (localDay tz))).map
    (fun d => aggDay tz (list.filter (fun it => localDay tz it == d)))

/-! ## Theorems for C6 (legacy tz offset) and C8 (missing fields) -/

/-- The legacy current payload of the spec's tz-offset scenario:
`timezone == 0`, `coord.lon == 45.0`. -/
def curTz0Lon45 : CurPayload :=
  { timezone := some 0, coord := some { lon := some 45 }, dt := none,
    main := none, wind := none, clouds := none, weather := [] }

/-- C6: the legacy normalizer's tz_offset is the payload's `timezone` field
when nonzero, and `round(lon * 240)` when that field is exactly 0; the record
returned by `_normalize_from_current_forecast` carries exactly this value;
and for `timezone == 0`, `lon == 45.0` the offset is `10800`. -/
theorem c6_legacy_tz_offset_rule :
    (∀ cur : CurPayload,
      (cur.timezone.getD 0 ≠ 0 → legacy_tz_offset cur = cur.timezone.getD 0) ∧
      (cur.timezone.getD 0 = 0 →
        legacy_tz_offset cur = pyRound (legacyLon cur * 240))) ∧
    (∀ (cur : CurPayload) (fc : FCPayload) (r : LegacyRecord),
      normalize_from_current_forecast cur fc = .ok r →
      r.tz_offset = legacy_tz_offset cur) ∧
    legacy_tz_offset curTz0Lon45 = 10800 := by
  have hconcrete : legacy_tz_offset curTz0Lon45 = 10800 := by
    have h240 : legacyLon curTz0Lon45 * 240 = ((10800 : ℤ) : ℚ) := by
      norm_num [legacyLon, curTz0Lon45]
    have hfloor : ⌊legacyLon curTz0Lon45 * 240⌋ = 10800 := by
      rw [h240, Int.floor_intCast]
    rw [legacy_tz_offset,
      if_pos (show curTz0Lon45.timezone.getD 0 = 0 from rfl), pyRound, hfloor, h240]
    norm_num
  refine ⟨?_, ?_, hconcrete⟩
  · intro cur
    constructor
    · intro h
      rw [legacy_tz_offset, if_neg h]
    · intro h
      rw [legacy_tz_offset, if_pos h]
  · intro cur fc r h
    rw [normalize_from_current_forecast] at h
    cases hg : buildDaily (legacy_tz_offset cur) fc.list [] with
    | error e => rw [hg] at h; cases h
    | ok groups =>
      rw [hg] at h
      cases h
      rfl

theorem c6_legacy_tz_offset_rule_witness :
    curTz0Lon45.timezone.getD 0 = 0 ∧
    legacy_tz_offset curTz0Lon45 = pyRound (legacyLon curTz0Lon45 * 240) :=
  ⟨rfl, (c6_legacy_tz_offset_rule.1 curTz0Lon45).2 rfl⟩

theorem except_pure_eq {ε α : Type} (a : α) : (pure a : Except ε α) = Except.ok a := rfl

theorem except_bind_error {ε α β : Type} (e : ε) (f : α → Except ε β) :
    ((Except.error e : Except ε α) >>= f) = Except.error e := rfl

theorem except_bind_ok {ε α β : Type} (a : α) (f : α → Except ε β) :
    ((Except.ok a : Except ε α) >>= f) = f a := rfl

theorem mapM_except_ok {α β : Type} (f : α → Except Unit β) :
    ∀ l : List α, (∀ x ∈ l, ∃ y, f x = .ok y) →
      ∃ ys : List β, l.mapM f = .ok ys := by
  intro l
  induction l with
  | nil => intro _; exact ⟨[], rfl⟩
  | cons a as ih =>
    intro h
    obtain ⟨y, hy⟩ := h a (List.mem_cons_self _ _)
    obtain ⟨ys, hys⟩ := ih (fun x hx => h x (List.mem_cons_of_mem _ hx))
    refine ⟨y :: ys, ?_⟩
    rw [List.mapM_cons, hy, hys]
    rfl

/-- C8: a primary-shape payload whose `current` is absent (or empty — both
are falsy and modelled as `none`) normalizes without raising to a record with
`current = none`, provided its (first 24/8) hourly/daily entries carry the
mandatory `dt`; and missing optional fields — an absent nested `temp` object
on a daily entry, an absent/empty `weather` array on a daily or hourly entry
— yield `none` fields rather than a failure. -/
theorem c8_onecall_missing_current :
    (∀ p : OCPayload, p.current = none →
      (∀ h ∈ p.hourly.take 24, h.dt ≠ none) →
      (∀ d ∈ p.daily.take 8, d.dt ≠ none) →
      ∃ r, normalize_onecall p = .ok r ∧ r.current = none) ∧
    (∀ (tz : ℤ) (d : OCDay) (r : DayPoint), norm_day tz d = .ok r →
      (d.temp = none → r.t_min = none ∧ r.t_max = none) ∧
      (d.weather = [] → r.desc = none ∧ r.icon = none)) ∧
    (∀ (tz : ℤ) (h : OCHour) (r : HourPoint), norm_hour tz h = .ok r →
      h.weather = [] → r.desc = none ∧ r.icon = none) := by
  refine ⟨?_, ?_, ?_⟩
  · intro p hcur hh hd
    obtain ⟨hs, hhs⟩ := mapM_except_ok (norm_hour (p.timezone_offset.getD 0))
      (p.hourly.take 24) (fun x hx => by
        cases hxdt : x.dt with
        | none => exact absurd hxdt (hh x hx)
        | some dt => exact ⟨_, by rw [norm_hour, hxdt]⟩)
    obtain ⟨ds, hds⟩ := mapM_except_ok (norm_day (p.timezone_offset.getD 0))
      (p.daily.take 8) (fun x hx => by
        cases hxdt : x.dt with
        | none => exact absurd hxdt (hd x hx)
        | some dt => exact ⟨_, by rw [norm_day, hxdt]⟩)
    refine ⟨{ tz_offset := p.timezone_offset.getD 0, current := none,
              hourly := hs, daily := ds }, ?_, rfl⟩
    simp only [normalize_onecall, hcur]
    rw [except_pure_eq, except_bind_ok, hhs, except_bind_ok, hds, except_bind_ok,
      except_pure_eq]
  · intro tz d r h
    cases hdt : d.dt with
    | none => rw [norm_day, hdt] at h; cases h
    | some dt =>
      rw [norm_day, hdt] at h
      cases h
      constructor
      · intro htemp
        simp [dayTemps, htemp]
      · intro hw
        simp [headW, hw]
  · intro tz h r hok hw
    cases hdt : h.dt with
    | none => rw [norm_hour, hdt] at hok; cases hok
    | some dt =>
      rw [norm_hour, hdt] at hok
      cases hok
      simp [headW, hw]

/-- The empty primary payload used to witness C8. -/
def ocEmpty : OCPayload :=
  { timezone_offset := none, current := none, hourly := [], daily := [] }

theorem c8_onecall_missing_current_witness :
    ∃ r, normalize_onecall ocEmpty = .ok r ∧ r.current = none :=
  c8_onecall_missing_current.1 ocEmpty rfl (by simp [ocEmpty]) (by simp [ocEmpty])

/-! ## C7: the legacy grouping loop refines the spec's day grouping -/

/-- The `by_date` association list that the grouping loop builds for a given
input list (spec-side description, keys included). -/
def assocOf (tz : ℤ) (l : List FCItem) : List (ℤ × DayGroup) :=
  (firstKeys (l.map (localDay tz))).map
    (fun d => (d, aggDay tz (l.filter (fun it => localDay tz it == d))))

theorem mem_foldl_insKey :
    ∀ (ds : List ℤ) (acc : List ℤ) (d : ℤ),
      d ∈ ds.foldl (fun acc d => if d ∈ acc then acc else acc ++ [d]) acc ↔
        d ∈ acc ∨ d ∈ ds := by
  intro ds
  induction ds with
  | nil => intro acc d; simp
  | cons d₀ ds' ih =>
    intro acc d
    rw [List.foldl_cons, ih]
    by_cases h0 : d₀ ∈ acc
    · rw [if_pos h0]
      constructor
      · rintro (h | h)
        · exact Or.inl h
        · exact Or.inr (List.mem_cons_of_mem _ h)
      · rintro (h | h)
        · exact Or.inl h
        · rcases List.mem_cons.mp h with h | h
          · exact Or.inl (h ▸ h0)
          · exact Or.inr h
    · rw [if_neg h0]
      constructor
      · rintro (h | h)
        · rcases List.mem_append.mp h with h | h
          · exact Or.inl h
          · exact Or.inr (List.mem_cons.mpr (Or.inl (List.mem_singleton.mp h)))
        · exact Or.inr (List.mem_cons_of_mem _ h)
      · rintro (h | h)
        · exact Or.inl (List.mem_append.mpr (Or.inl h))
        · rcases List.mem_cons.mp h with h | h
          · exact Or.inl (List.mem_append.mpr (Or.inr (List.mem_singleton.mpr h)))
          · exact Or.inr h

theorem mem_firstKeys (ds : List ℤ) (d : ℤ) : d ∈ firstKeys ds ↔ d ∈ ds := by
  rw [firstKeys, mem_foldl_insKey]
  simp

theorem firstKeys_append_singleton (ds : List ℤ) (d : ℤ) :
    firstKeys (ds ++ [d])
      = if d ∈ firstKeys ds then firstKeys ds else firstKeys ds ++ [d] := by
  rw [firstKeys, firstKeys, List.foldl_append]
  rfl

theorem findA_map (ks : List ℤ) (f : ℤ → DayGroup) (d : ℤ) :
    ((ks.map (fun k => (k, f k))).find? (fun p => p.1 == d)).map (fun p => p.2)
      = if d ∈ ks then some (f d) else none := by
  induction ks with
  | nil => simp
  | cons k ks' ih =>
    by_cases hk : k = d
    · subst hk
      rw [List.map_cons, List.find?_cons_of_pos _ (by simp)]
      simp
    · rw [List.map_cons, List.find?_cons_of_neg _ (by simp [hk]), ih]
      by_cases hd : d ∈ ks'
      · rw [if_pos hd, if_pos (List.mem_cons_of_mem _ hd)]
      · rw [if_neg hd, if_neg (by
          intro hmem
          rcases List.mem_cons.mp hmem with h | h
          · exact hk h.symm
          · exact hd h)]

theorem updateA_map (ks : List ℤ) (f : ℤ → DayGroup) (d : ℤ) (g : DayGroup) :
    (ks.map (fun k => (k, f k))).map
        (fun p => if p.1 == d then (d, g) else p)
      = ks.map (fun k => if k == d then (d, g) else (k, f k)) := by
  rw [List.map_map]
  apply List.map_congr_left
  intro k _
  by_cases hk : k = d <;> simp [hk]

theorem min?_concat {xs : List ℚ} {m : ℚ} (t : ℚ) (h : xs.min? = some m) :
    (xs ++ [t]).min? = some (min m t) := by
  cases xs with
  | nil => simp at h
  | cons x xs' =>
    have hfold : xs'.foldl min x = m := by
      rw [show (x :: xs').min? = some (xs'.foldl min x) from rfl] at h
      exact Option.some.inj h
    rw [List.cons_append,
      show ((x :: (xs' ++ [t])).min? = some ((xs' ++ [t]).foldl min x)) from rfl,
      List.foldl_append, hfold]
    rfl

theorem max?_concat {xs : List ℚ} {m : ℚ} (t : ℚ) (h : xs.max? = some m) :
    (xs ++ [t]).max? = some (max m t) := by
  cases xs with
  | nil => simp at h
  | cons x xs' =>
    have hfold : xs'.foldl max x = m := by
      rw [show (x :: xs').max? = some (xs'.foldl max x) from rfl] at h
      exact Option.some.inj h
    rw [List.cons_append,
      show ((x :: (xs' ++ [t])).max? = some ((xs' ++ [t]).foldl max x)) from rfl,
      List.foldl_append, hfold]
    rfl

theorem buildDaily_append (tz : ℤ) (l₁ l₂ : List FCItem) :
    ∀ acc, buildDaily tz (l₁ ++ l₂) acc
      = (buildDaily tz l₁ acc).bind (fun acc' => buildDaily tz l₂ acc') := by
  induction l₁ with
  | nil => intro acc; rfl
  | cons it rest ih =>
    intro acc
    rw [List.cons_append]
    simp only [buildDaily]
    cases hfind : (acc.find? (fun p => p.1 == localDay tz it)).map (fun p => p.2) with
    | none => exact ih _
    | some g =>
      cases hmin : pyMin g.t_min (itemTemp it) with
      | error e => simp only [hmin, except_bind_error]; rfl
      | ok tmin =>
        simp only [hmin, except_bind_ok]
        cases hmax : pyMax g.t_max (itemTemp it) with
        | error e => simp only [hmax, except_bind_error]; rfl
        | ok tmax =>
          simp only [hmax, except_bind_ok]
          exact ih _

theorem buildDaily_single (tz : ℤ) (it : FCItem) (acc : List (ℤ × DayGroup)) :
    buildDaily tz [it] acc
      = match (acc.find? (fun p => p.1 == localDay tz it)).map (fun p => p.2) with
        | none => .ok (acc ++ [(localDay tz it,
            { dt_local := localDayTs tz it, t_min := itemTemp it,
              t_max := itemTemp it, pop := itemPop it,
              desc := (headW it.weather).description,
              icon := (headW it.weather).icon })])
        | some g =>
          (pyMin g.t_min (itemTemp it)).bind (fun tmin =>
            (pyMax g.t_max (itemTemp it)).bind (fun tmax =>
              .ok (acc.map (fun p =>
                if p.1 == localDay tz it then
                  (localDay tz it,
                   { dt_local := g.dt_local, t_min := tmin, t_max := tmax,
                     pop := max g.pop (itemPop it), desc := g.desc,
                     icon := g.icon })
                else p)))) := by
  simp only [buildDaily]
  cases hfind : (acc.find? (fun p => p.1 == localDay tz it)).map (fun p => p.2) with
  | none => rfl
  | some g =>
    cases hmin : pyMin g.t_min (itemTemp it) with
    | error e => simp only [hmin, except_bind_error]; rfl
    | ok tmin =>
      simp only [hmin, except_bind_ok]
      cases hmax : pyMax g.t_max (itemTemp it) with
      | error e => simp only [hmax, except_bind_error]; rfl
      | ok tmax => simp only [hmax, except_bind_ok]; rfl

theorem buildDaily_single_found (tz : ℤ) (it : FCItem)
    (acc : List (ℤ × DayGroup)) (g : DayGroup)
    (hfind : ((acc.find? (fun p => p.1 == localDay tz it)).map (fun p => p.2))
      = some g) :
    buildDaily tz [it] acc
      = (pyMin g.t_min (itemTemp it)).bind (fun tmin =>
          (pyMax g.t_max (itemTemp it)).bind (fun tmax =>
            Except.ok (acc.map (fun p =>
              if p.1 == localDay tz it then
                (localDay tz it,
                 { dt_local := g.dt_local, t_min := tmin, t_max := tmax,
                   pop := max g.pop (itemPop it), desc := g.desc,
                   icon := g.icon })
              else p)))) := by
  rw [buildDaily_single, hfind]

theorem buildDaily_single_new (tz : ℤ) (it : FCItem)
    (acc : List (ℤ × DayGroup))
    (hfind : ((acc.find? (fun p => p.1 == localDay tz it)).map (fun p => p.2))
      = none) :
    buildDaily tz [it] acc
      = Except.ok (acc ++ [(localDay tz it,
          { dt_local := localDayTs tz it, t_min := itemTemp it,
            t_max := itemTemp it, pop := itemPop it,
            desc := (headW it.weather).description,
            icon := (headW it.weather).icon })]) := by
  rw [buildDaily_single, hfind]

theorem headD_append_ne_nil {α : Type} {xs : List α} (ys : List α) (d : α)
    (h : xs ≠ []) : (xs ++ ys).headD d = xs.headD d := by
  cases xs with
  | nil => exact absurd rfl h
  | cons x xs' => rfl

theorem exists_min?_of_ne_nil {xs : List ℚ} (h : xs ≠ []) :
    ∃ m, xs.min? = some m := by
  cases xs with
  | nil => exact absurd rfl h
  | cons x xs' => exact ⟨_, rfl⟩

theorem exists_max?_of_ne_nil {xs : List ℚ} (h : xs ≠ []) :
    ∃ m, xs.max? = some m := by
  cases xs with
  | nil => exact absurd rfl h
  | cons x xs' => exact ⟨_, rfl⟩

theorem temps_ne_nil {grp : List FCItem} (h : grp ≠ [])
    (ht : ∀ it ∈ grp, itemTemp it ≠ none) : grp.filterMap itemTemp ≠ [] := by
  cases grp with
  | nil => exact absurd rfl h
  | cons it grp' =>
    cases hti : itemTemp it with
    | none => exact absurd hti (ht it (List.mem_cons_self _ _))
    | some t => simp [List.filterMap_cons, hti]

theorem grp_ne_nil (tz : ℤ) (l : List FCItem) (d : ℤ)
    (h : d ∈ l.map (localDay tz)) :
    l.filter (fun it => localDay tz it == d) ≠ [] := by
  obtain ⟨it, hit, heq⟩ := List.mem_map.mp h
  intro hnil
  have hmem : it ∈ l.filter (fun it => localDay tz it == d) :=
    List.mem_filter.mpr ⟨hit, by simp [heq]⟩
  rw [hnil] at hmem
  exact absurd hmem (List.not_mem_nil it)

theorem filter_localDay_append_ne (tz : ℤ) (l : List FCItem) (e : FCItem)
    (d : ℤ) (h : localDay tz e ≠ d) :
    (l ++ [e]).filter (fun it => localDay tz it == d)
      = l.filter (fun it => localDay tz it == d) := by
  rw [List.filter_append]
  simp [h]

theorem filter_localDay_append_eq (tz : ℤ) (l : List FCItem) (e : FCItem) :
    (l ++ [e]).filter (fun it => localDay tz it == localDay tz e)
      = l.filter (fun it => localDay tz it == localDay tz e) ++ [e] := by
  rw [List.filter_append]
  simp

theorem filter_localDay_nil (tz : ℤ) (l : List FCItem) (d : ℤ)
    (h : d ∉ l.map (localDay tz)) :
    l.filter (fun it => localDay tz it == d) = [] := by
  rw [List.filter_eq_nil_iff]
  intro it hit
  simp only [beq_iff_eq]
  intro heq
  exact h (heq ▸ List.mem_map_of_mem _ hit)

theorem assocOf_snd (tz : ℤ) (l : List FCItem) :
    (assocOf tz l).map (fun p => p.2) = dailySpec tz l := by
  rw [assocOf, dailySpec, List.map_map]
  rfl

theorem buildDaily_eq_assocOf (tz : ℤ) (l : List FCItem)
    (htemps : ∀ it ∈ l, itemTemp it ≠ none) :
    buildDaily tz l [] = .ok (assocOf tz l) := by
  induction l using List.reverseRecOn with
  | nil => rfl
  | append_singleton l e ih =>
    have htl : ∀ it ∈ l, itemTemp it ≠ none :=
      fun it hit => htemps it (List.mem_append.mpr (Or.inl hit))
    have hte : itemTemp e ≠ none :=
      htemps e (List.mem_append.mpr (Or.inr (List.mem_singleton.mpr rfl)))
    obtain ⟨t, hte'⟩ := Option.ne_none_iff_exists'.mp hte
    have hds : (l ++ [e]).map (localDay tz)
        = l.map (localDay tz) ++ [localDay tz e] := by
      rw [List.map_append]
      rfl
    rw [buildDaily_append, ih htl]
    rw [show (Except.ok (assocOf tz l)).bind
        (fun acc' => buildDaily tz [e] acc')
        = buildDaily tz [e] (assocOf tz l) from rfl]
    by_cases hday : localDay tz e ∈ firstKeys (l.map (localDay tz))
    · -- the day was already encountered: the existing group is updated
      have hdayds : localDay tz e ∈ l.map (localDay tz) :=
        (mem_firstKeys _ _).mp hday
      have hgrpne := grp_ne_nil tz l (localDay tz e) hdayds
      have htempsg : ∀ it ∈ l.filter
          (fun it => localDay tz it == localDay tz e), itemTemp it ≠ none :=
        fun it hit => htl it (List.mem_of_mem_filter hit)
      obtain ⟨m, hm⟩ := exists_min?_of_ne_nil (temps_ne_nil hgrpne htempsg)
      obtain ⟨M, hM⟩ := exists_max?_of_ne_nil (temps_ne_nil hgrpne htempsg)
      obtain ⟨P, hP⟩ := @exists_max?_of_ne_nil
        ((l.filter (fun it => localDay tz it == localDay tz e)).map itemPop)
        (by simpa using hgrpne)
      have hfinds : (((assocOf tz l).find?
          (fun p => p.1 == localDay tz e)).map (fun p => p.2))
          = some (aggDay tz (l.filter
              (fun it => localDay tz it == localDay tz e))) := by
        have hfa := findA_map (firstKeys (l.map (localDay tz)))
          (fun d => aggDay tz (l.filter (fun it => localDay tz it == d)))
          (localDay tz e)
        rw [if_pos hday] at hfa
        exact hfa
      have hgmin : (aggDay tz (l.filter
          (fun it => localDay tz it == localDay tz e))).t_min = some m := hm
      have hgmax : (aggDay tz (l.filter
          (fun it => localDay tz it == localDay tz e))).t_max = some M := hM
      have hagg : aggDay tz ((l.filter
          (fun it => localDay tz it == localDay tz e)) ++ [e])
          = { dt_local := (aggDay tz (l.filter
                (fun it => localDay tz it == localDay tz e))).dt_local
              t_min := some (min m t)
              t_max := some (max M t)
              pop := max (aggDay tz (l.filter
                (fun it => localDay tz it == localDay tz e))).pop (itemPop e)
              desc := (aggDay tz (l.filter
                (fun it => localDay tz it == localDay tz e))).desc
              icon := (aggDay tz (l.filter
                (fun it => localDay tz it == localDay tz e))).icon } := by
        have hfm : List.filterMap itemTemp [e] = [t] := by simp [hte']
        have hpm : List.map itemPop [e] = [itemPop e] := rfl
        simp only [aggDay, DayGroup.mk.injEq]
        refine ⟨?_, ?_, ?_, ?_, ?_, ?_⟩
        · rw [headD_append_ne_nil _ _ hgrpne]
        · rw [List.filterMap_append, hfm, min?_concat t hm]
        · rw [List.filterMap_append, hfm, max?_concat t hM]
        · rw [List.map_append, hpm, max?_concat (itemPop e) hP, hP]
          rfl
        · rw [headD_append_ne_nil _ _ hgrpne]
        · rw [headD_append_ne_nil _ _ hgrpne]
      calc buildDaily tz [e] (assocOf tz l)
          = .ok ((assocOf tz l).map (fun p =>
              if p.1 == localDay tz e then
                (localDay tz e,
                 { dt_local := (aggDay tz (l.filter
                     (fun it => localDay tz it == localDay tz e))).dt_local
                   t_min := some (min m t)
                   t_max := some (max M t)
                   pop := max (aggDay tz (l.filter
                     (fun it => localDay tz it == localDay tz e))).pop
                       (itemPop e)
                   desc := (aggDay tz (l.filter
                     (fun it => localDay tz it == localDay tz e))).desc
                   icon := (aggDay tz (l.filter
                     (fun it => localDay tz it == localDay tz e))).icon })
              else p)) := by
            rw [buildDaily_single_found tz e (assocOf tz l) _ hfinds,
              hgmin, hgmax, hte']
            rfl
        _ = .ok (assocOf tz (l ++ [e])) := by
            congr 1
            rw [show assocOf tz (l ++ [e])
              = (firstKeys ((l ++ [e]).map (localDay tz))).map
                  (fun d => (d, aggDay tz ((l ++ [e]).filter
                    (fun it => localDay tz it == d)))) from rfl]
            rw [hds, firstKeys_append_singleton, if_pos hday]
            rw [show (assocOf tz l).map (fun p =>
                if p.1 == localDay tz e then (localDay tz e, _) else p)
              = (firstKeys (l.map (localDay tz))).map (fun k =>
                  if k == localDay tz e then (localDay tz e, _)
                  else (k, aggDay tz (l.filter
                    (fun it => localDay tz it == k)))) from updateA_map _ _ _ _]
            apply List.map_congr_left
            intro k hk
            by_cases hkday : k = localDay tz e
            · subst hkday
              rw [if_pos (by simp)]
              rw [filter_localDay_append_eq, hagg]
            · rw [if_neg (by simp [hkday])]
              rw [filter_localDay_append_ne tz l e k (fun h => hkday h.symm)]
    · -- a new day: a fresh group is appended
      have hdaynot : localDay tz e ∉ l.map (localDay tz) :=
        fun h => hday ((mem_firstKeys _ _).mpr h)
      have hfindn : (((assocOf tz l).find?
          (fun p => p.1 == localDay tz e)).map (fun p => p.2)) = none := by
        have hfa := findA_map (firstKeys (l.map (localDay tz)))
          (fun d => aggDay tz (l.filter (fun it => localDay tz it == d)))
          (localDay tz e)
        rw [if_neg hday] at hfa
        exact hfa
      calc buildDaily tz [e] (assocOf tz l)
          = .ok (assocOf tz l ++ [(localDay tz e,
              { dt_local := localDayTs tz e, t_min := itemTemp e,
                t_max := itemTemp e, pop := itemPop e,
                desc := (headW e.weather).description,
                icon := (headW e.weather).icon })]) := by
            rw [buildDaily_single_new tz e (assocOf tz l) hfindn]
        _ = .ok (assocOf tz (l ++ [e])) := by
            congr 1
            rw [show assocOf tz (l ++ [e])
              = (firstKeys ((l ++ [e]).map (localDay tz))).map
                  (fun d => (d, aggDay tz ((l ++ [e]).filter
                    (fun it => localDay tz it == d)))) from rfl]
            rw [hds, firstKeys_append_singleton, if_neg hday, List.map_append]
            congr 1
            · rw [show assocOf tz l
                = (firstKeys (l.map (localDay tz))).map
                    (fun d => (d, aggDay tz (l.filter
                      (fun it => localDay tz it == d)))) from rfl]
              apply List.map_congr_left
              intro k hk
              have hkne : localDay tz e ≠ k := fun h => hday (h ▸ hk)
              rw [filter_localDay_append_ne tz l e k hkne]
            · rw [List.map_cons, List.map_nil]
              rw [filter_localDay_append_eq, filter_localDay_nil tz l _ hdaynot,
                List.nil_append]
              have : aggDay tz [e]
                  = { dt_local := localDayTs tz e, t_min := itemTemp e,
                      t_max := itemTemp e, pop := itemPop e,
                      desc := (headW e.weather).description,
                      icon := (headW e.weather).icon } := by
                simp only [aggDay, DayGroup.mk.injEq]
                refine ⟨rfl, ?_, ?_, ?_, rfl, rfl⟩
                · rw [show List.filterMap itemTemp [e] = [t] by simp [hte'],
                    hte']
                  rfl
                · rw [show List.filterMap itemTemp [e] = [t] by simp [hte'],
                    hte']
                  rfl
                · rfl
              rw [this]

theorem onecall_bind_daily_inv (tz : ℤ) (mcur : Except Unit (Option CurrentPoint))
    (mh : Except Unit (List HourPoint)) (md : Except Unit (List DayPoint))
    (r : OnecallRecord)
    (h : (mcur >>= fun current => mh >>= fun hourly => md >>= fun daily =>
          pure { tz_offset := tz, current := current, hourly := hourly,
                 daily := daily }) = .ok r) :
    md = .ok r.daily := by
  cases mcur with
  | error e => rw [except_bind_error] at h; cases h
  | ok current =>
    rw [except_bind_ok] at h
    cases mh with
    | error e => rw [except_bind_error] at h; cases h
    | ok hourly =>
      rw [except_bind_ok] at h
      cases md with
      | error e => rw [except_bind_error] at h; cases h
      | ok daily =>
        rw [except_bind_ok, except_pure_eq] at h
        rw [← Except.ok.inj h]

theorem normalize_onecall_daily (p : OCPayload) (r : OnecallRecord)
    (h : normalize_onecall p = .ok r) :
    (p.daily.take 8).mapM (norm_day (p.timezone_offset.getD 0))
      = .ok r.daily := by
  rw [normalize_onecall] at h
  cases hcur : p.current with
  | none =>
    rw [hcur] at h
    exact onecall_bind_daily_inv (p.timezone_offset.getD 0) _ _ _ r h
  | some c =>
    rw [hcur] at h
    exact onecall_bind_daily_inv (p.timezone_offset.getD 0) _ _ _ r h

/-- C7: for every legacy forecast list whose entries carry a temperature
(the legacy shape), the legacy normalizer succeeds, and its daily sequence is
exactly the spec-side grouping `dailySpec` — entries grouped by the calendar
date of their tz-shifted timestamp, `t_min`/`t_max` the group minimum/maximum
temperature, `pop` the group maximum precipitation probability, groups in
first-encounter order — truncated to at most 7 groups, the number of groups
before truncation being the number of distinct local days; the primary
normalizer's daily sequence is instead the normalization of the first 8
upstream daily entries. -/
theorem c7_daily_grouping :
    (∀ (cur : CurPayload) (fc : FCPayload),
      (∀ it ∈ fc.list, itemTemp it ≠ none) →
      ∃ r, normalize_from_current_forecast cur fc = .ok r ∧
        r.daily = (dailySpec (legacy_tz_offset cur) fc.list).take 7 ∧
        (dailySpec (legacy_tz_offset cur) fc.list).length
          = (firstKeys (fc.list.map (localDay (legacy_tz_offset cur)))).length) ∧
    (∀ (p : OCPayload) (r : OnecallRecord), normalize_onecall p = .ok r →
      (p.daily.take 8).mapM (norm_day (p.timezone_offset.getD 0))
        = .ok r.daily) := by
  constructor
  · intro cur fc htemps
    have hb := buildDaily_eq_assocOf (legacy_tz_offset cur) fc.list htemps
    refine ⟨{ tz_offset := legacy_tz_offset cur
              current := legacyCurrent (legacy_tz_offset cur) cur
              hourly := (fc.list.take 24).map (legacyHour (legacy_tz_offset cur))
              daily := ((assocOf (legacy_tz_offset cur) fc.list).map
                (fun p => p.2)).take 7 }, ?_, ?_, ?_⟩
    · simp only [normalize_from_current_forecast]
      rw [hb, except_bind_ok, except_pure_eq]
    · show ((assocOf (legacy_tz_offset cur) fc.list).map (fun p => p.2)).take 7
        = (dailySpec (legacy_tz_offset cur) fc.list).take 7
      rw [assocOf_snd]
    · rw [dailySpec, List.length_map]
  · exact fun p r h => normalize_onecall_daily p r h

/-- Current payload for the C7 witness (`timezone = 3600`, so the legacy tz
offset is one hour). -/
def curTwoDay : CurPayload :=
  { timezone := some 3600, coord := none, dt := none, main := none,
    wind := none, clouds := none, weather := [] }

/-- A forecast list spanning exactly two local calendar days (shifted
timestamps 3600, 10800 on day 0 and 93600 on day 1). -/
def fcTwoDay : FCPayload :=
  { list :=
    [ { dt := some 0,
        main := some { temp := some 20, feels_like := none, humidity := none,
                       pressure := none },
        pop := some (1 / 2), wind := none, weather := [] },
      { dt := some 7200,
        main := some { temp := some 10, feels_like := none, humidity := none,
                       pressure := none },
        pop := some (1 / 4), wind := none, weather := [] },
      { dt := some 90000,
        main := some { temp := some 30, feels_like := none, humidity := none,
                       pressure := none },
        pop := none, wind := none, weather := [] } ] }

theorem c7_daily_grouping_witness :
    (∃ r, normalize_from_current_forecast curTwoDay fcTwoDay = .ok r ∧
      r.daily = (dailySpec (legacy_tz_offset curTwoDay) fcTwoDay.list).take 7 ∧
      (dailySpec (legacy_tz_offset curTwoDay) fcTwoDay.list).length
        = (firstKeys (fcTwoDay.list.map
            (localDay (legacy_tz_offset curTwoDay)))).length) ∧
    (firstKeys (fcTwoDay.list.map (localDay (legacy_tz_offset curTwoDay)))).length
      = 2 :=
  ⟨c7_daily_grouping.1 curTwoDay fcTwoDay (by decide), by decide⟩

end TDTT
